import Mathlib

/-!
  # Rate limiter: a shallow embedding of `rate_limiter.py`

  The `RateLimiter` class tracks a rolling window of request timestamps,
  enforces a requests-per-minute ceiling, injects randomized delays, and
  manages exponential backoff with jitter plus identity rotation (user
  agent, optional proxy) in response to throttling signals.

  Embedding conventions:

  * Python floats (times, delays, backoffs) are modelled as `ℚ`; the
    claims concern the arithmetic of the algorithm, not IEEE rounding.
  * `time.time()` is an explicit `now : ℚ` argument to each operation
    that reads the clock.  A `time.sleep(d)` call is modelled as the
    duration `d` appended to an explicit list of issued sleeps; inside
    one `wait_if_needed` call, real time at the end is idealized as
    `now` plus the sum of the issued sleeps (sleeps are exact and
    computation takes no time), which is what the final
    `self.last_request_time = time.time()` stores.
  * The two random draws are explicit parameters: the backoff jitter
    `u` stands for `random.uniform(-0.2, 0.2)`, and the noise branch is
    `noiseHit : Bool` (the `random.random() < 0.2` test) together with
    `draw : ℚ` for `random.uniform(min_delay, max_delay)`; theorems that
    need the support of a draw carry it as a hypothesis.
  * The `collections.deque(maxlen=60)` becomes a `List ℚ`, oldest entry
    first, with `dequeAppend60` performing the bounded append.
  * Python keyword arguments to `configure` become a record of `Option`
    fields, one per key of `self.config` (a Python call cannot repeat a
    keyword), plus the list of unrecognized keys, which the loop skips.
  * Fallible indexing (`list[i]`, raising `IndexError` out of range)
    returns an `Option`.
-/

namespace RateLimiter

/-- The `self.config` dict: all nine keys installed by `__init__`. -/
structure ThrottleConfig where
  min_delay : ℚ
  max_delay : ℚ
  rpm_limit : ℕ
  browser : String
  headless : Bool
  use_proxies : Bool
  initial_backoff : ℚ
  max_backoff : ℚ
  backoff_factor : ℚ
deriving DecidableEq, Repr

/-- The default configuration installed by `__init__`. -/
def defaultConfig : ThrottleConfig where
  min_delay := 1
  max_delay := 3
  rpm_limit := 20
  browser := "chrome"
  headless := false
  use_proxies := false
  initial_backoff := 5
  max_backoff := 300
  backoff_factor := 2

/-- The fixed pool of user-agent strings installed by `__init__`. -/
def initialUserAgents : List String :=
  [ "Mozilla/5.0 (Windows NT 10.0; Win64; x64) AppleWebKit/537.36 (KHTML, like Gecko) Chrome/91.0.4472.124 Safari/537.36"
  , "Mozilla/5.0 (Macintosh; Intel Mac OS X 10_15_7) AppleWebKit/537.36 (KHTML, like Gecko) Chrome/91.0.4472.124 Safari/537.36"
  , "Mozilla/5.0 (Windows NT 10.0; Win64; x64; rv:89.0) Gecko/20100101 Firefox/89.0"
  , "Mozilla/5.0 (Macintosh; Intel Mac OS X 10_15_7) AppleWebKit/605.1.15 (KHTML, like Gecko) Version/14.1.1 Safari/605.1.15"
  , "Mozilla/5.0 (Windows NT 10.0; Win64; x64) AppleWebKit/537.36 (KHTML, like Gecko) Chrome/91.0.4472.124 Safari/537.36 Edg/91.0.864.59"
  , "Mozilla/5.0 (X11; Linux x86_64) AppleWebKit/537.36 (KHTML, like Gecko) Chrome/91.0.4472.124 Safari/537.36"
  , "Mozilla/5.0 (iPhone; CPU iPhone OS 14_6 like Mac OS X) AppleWebKit/605.1.15 (KHTML, like Gecko) CriOS/91.0.4472.80 Mobile/15E148 Safari/604.1"
  , "Mozilla/5.0 (iPad; CPU OS 14_6 like Mac OS X) AppleWebKit/605.1.15 (KHTML, like Gecko) CriOS/91.0.4472.80 Mobile/15E148 Safari/604.1"
  , "Mozilla/5.0 (Linux; Android 11; SM-G991B) AppleWebKit/537.36 (KHTML, like Gecko) Chrome/91.0.4472.120 Mobile Safari/537.36"
  , "Mozilla/5.0 (X11; Ubuntu; Linux x86_64; rv:89.0) Gecko/20100101 Firefox/89.0" ]

/-- The mutable state of a `RateLimiter` instance: configuration, pacing
state, escalation state, and the rotation pools with their indices. -/
structure State where
  config : ThrottleConfig
  last_request_time : ℚ
  request_times : List ℚ
  error_count : ℕ
  current_backoff : ℚ
  user_agents : List String
  current_user_agent_idx : ℕ
  proxies : List String
  current_proxy_idx : ℕ
deriving DecidableEq, Repr

/-- The state produced by `__init__`. -/
def initState : State where
  config := defaultConfig
  last_request_time := 0
  request_times := []
  error_count := 0
  current_backoff := defaultConfig.initial_backoff
  user_agents := initialUserAgents
  current_user_agent_idx := 0
  proxies := []
  current_proxy_idx := 0

/-- Keyword arguments to `configure`: at most one value per recognized
key of `self.config`, plus the keys that are not in `self.config` (the
loop body skips them, so only their presence is recorded). -/
structure ConfigureOptions where
  min_delay : Option ℚ := none
  max_delay : Option ℚ := none
  rpm_limit : Option ℕ := none
  browser : Option String := none
  headless : Option Bool := none
  use_proxies : Option Bool := none
  initial_backoff : Option ℚ := none
  max_backoff : Option ℚ := none
  backoff_factor : Option ℚ := none
  unrecognized : List String := []
deriving DecidableEq, Repr

/-- The `for key, value in kwargs.items(): if key in self.config: ...`
loop: each supplied recognized key overwrites its config entry; keys not
in the config dict are skipped. -/
def applyOptions (c : ThrottleConfig) (o : ConfigureOptions) : ThrottleConfig where
  min_delay := o.min_delay.getD c.min_delay
  max_delay := o.max_delay.getD c.max_delay
  rpm_limit := o.rpm_limit.getD c.rpm_limit
  browser := o.browser.getD c.browser
  headless := o.headless.getD c.headless
  use_proxies := o.use_proxies.getD c.use_proxies
  initial_backoff := o.initial_backoff.getD c.initial_backoff
  max_backoff := o.max_backoff.getD c.max_backoff
  backoff_factor := o.backoff_factor.getD c.backoff_factor

/-- `configure(**kwargs)`: update the supplied recognized keys, then
unconditionally reset `current_backoff` to the (possibly just updated)
`initial_backoff` and `error_count` to 0. -/
def configure (s : State) (o : ConfigureOptions) : State :=
  let c := applyOptions s.config o
  { s with config := c, current_backoff := c.initial_backoff, error_count := 0 }

/-- Python's `min` over a nonempty sequence, as a left fold; `none` on the
empty list (where Python would raise `ValueError`). -/
def listMin? : List ℚ → Option ℚ
  | [] => none
  | x :: xs => some (xs.foldl min x)

/-- The count `sum(1 for t in self.request_times if t > minute_ago)` with
`minute_ago = now - 60`. -/
def recentRequests (times : List ℚ) (now : ℚ) : ℕ :=
  (times.filter (fun t => now - 60 < t)).length

/-- The wait the RPM branch computes: `61 - (current_time - oldest)` where
`oldest` is `min(self.request_times)` (the fallback `minute_ago` applies
only to an empty log). Note the source binds this minimum to a variable
named `oldest_in_window` although it ranges over the whole deque. -/
def rpmWaitTime (s : State) (now : ℚ) : ℚ :=
  let oldest :=
    match listMin? s.request_times with
    | some m => m
    | none => now - 60
  61 - (now - oldest)

/-- The sleeps issued by the RPM-ceiling step of `wait_if_needed`: when
the count of log entries in the trailing 60 seconds reaches `rpm_limit`,
sleep `rpmWaitTime` if it is positive. -/
def rpmSleep (s : State) (now : ℚ) : List ℚ :=
  if s.config.rpm_limit ≤ recentRequests s.request_times now then
    if 0 < rpmWaitTime s now then [rpmWaitTime s now] else []
  else []

/-- The sleeps issued by the minimum-delay step of `wait_if_needed`: the
source computes `time_since_last = current_time - self.last_request_time`
once, at entry (before the RPM branch), and sleeps the difference when it
falls short of `min_delay`. -/
def minDelaySleep (s : State) (now : ℚ) : List ℚ :=
  if now - s.last_request_time < s.config.min_delay then
    [s.config.min_delay - (now - s.last_request_time)]
  else []

/-- The sleeps issued by the 20%-probability noise step: when the draw on
`random.random()` lands under 0.2, sleep the uniform draw from
`[min_delay, max_delay]`. -/
def noiseSleep (noiseHit : Bool) (draw : ℚ) : List ℚ :=
  if noiseHit then [draw] else []

/-- `wait_if_needed()`: issue the RPM-ceiling, minimum-delay and noise
sleeps in order, then store `time.time()` — idealized as `now` plus the
total slept — into `last_request_time`.  Returns the issued sleeps
together with the new state. -/
def wait_if_needed (s : State) (now : ℚ) (noiseHit : Bool) (draw : ℚ) :
    List ℚ × State :=
  let sleeps := rpmSleep s now ++ minDelaySleep s now ++ noiseSleep noiseHit draw
  (sleeps, { s with last_request_time := now + sleeps.sum })

/-- `self.request_times.append(t)` on a `deque(maxlen=60)`: append on the
right, evicting the leftmost (oldest) entry when the deque is full. -/
def dequeAppend60 (xs : List ℚ) (x : ℚ) : List ℚ :=
  if xs.length < 60 then xs ++ [x] else xs.tail ++ [x]

/-- `record_request()`: push the current time into the rolling log. -/
def record_request (s : State) (now : ℚ) : State :=
  { s with request_times := dequeAppend60 s.request_times now }

/-- `_rotate_user_agent()`: advance the user-agent index cyclically. -/
def rotate_user_agent (s : State) : State :=
  { s with current_user_agent_idx :=
      (s.current_user_agent_idx + 1) % s.user_agents.length }

/-- `_rotate_proxy()`: a no-op on an empty pool, else advance the proxy
index cyclically. -/
def rotate_proxy (s : State) : State :=
  if s.proxies = [] then s
  else { s with current_proxy_idx := (s.current_proxy_idx + 1) % s.proxies.length }

/-- `handle_rate_limit_error()`: bump `error_count`, compute the jittered
backoff to report from the current (pre-escalation) `current_backoff` with
`u` standing for `random.uniform(-0.2, 0.2)`, escalate `current_backoff`
by `backoff_factor` capped at `max_backoff`, rotate the user agent always
and the proxy only under `use_proxies`, and return the jittered backoff
(the method issues no sleep). -/
def handle_rate_limit_error (s : State) (u : ℚ) : ℚ × State :=
  let backoff := min (s.current_backoff * (1 + u)) s.config.max_backoff
  let s1 := { s with
      error_count := s.error_count + 1
      current_backoff :=
        min (s.current_backoff * s.config.backoff_factor) s.config.max_backoff }
  let s2 := rotate_user_agent s1
  let s3 := if s.config.use_proxies then rotate_proxy s2 else s2
  (backoff, s3)

/-- `reset_error_count()`: on a positive error count, zero it and restore
`current_backoff` to `initial_backoff`; otherwise leave the state alone. -/
def reset_error_count (s : State) : State :=
  if 0 < s.error_count then
    { s with error_count := 0, current_backoff := s.config.initial_backoff }
  else s

/-- `get_user_agent()`: the pool entry at the current index; Python raises
`IndexError` out of range, modelled by `none`. -/
def get_user_agent (s : State) : Option String :=
  s.user_agents[s.current_user_agent_idx]?

/-- `get_proxy()`: the sentinel `None` when proxies are disabled or the
pool is empty, else the pool entry at the current index (again `none`
standing for an out-of-range `IndexError`). -/
def get_proxy (s : State) : Option String :=
  if ¬ s.config.use_proxies ∨ s.proxies = [] then none
  else s.proxies[s.current_proxy_idx]?

/-- The dict returned by `get_request_stats()`. -/
structure Stats where
  requests_last_minute : ℕ
  rpm_limit : ℕ
  error_count : ℕ
  current_backoff : ℚ
  last_request_time : ℚ
  time_since_last : Option ℚ
deriving DecidableEq, Repr

/-- `get_request_stats()`: a read-only snapshot; `time_since_last` is
`None` exactly when `self.last_request_time` is falsy, i.e. equals 0. -/
def get_request_stats (s : State) (now : ℚ) : Stats where
  requests_last_minute := recentRequests s.request_times now
  rpm_limit := s.config.rpm_limit
  error_count := s.error_count
  current_backoff := s.current_backoff
  last_request_time := s.last_request_time
  time_since_last :=
    if s.last_request_time ≠ 0 then some (now - s.last_request_time) else none

/-- Fold `handle_rate_limit_error` over a list of jitter draws, keeping
the state: the effect of that many consecutive throttle signals. -/
def handleIterState (s : State) : List ℚ → State
  | [] => s
  | u :: us => handleIterState (handle_rate_limit_error s u).2 us

/-- Fold `record_request` over a list of timestamps. -/
def recordIter (s : State) : List ℚ → State
  | [] => s
  | t :: ts => recordIter (record_request s t) ts

/-- The minimum-delay step as the specification words it for the check
after an RPM wait: re-check the elapsed time since `last_request_time`
at the moment the RPM sleep has completed, and sleep the difference when
that post-wait elapsed time falls short of `min_delay`.  Stated from the
spec only, to be compared with `minDelaySleep` from the source. -/
def minDelaySleepPostWait (s : State) (now : ℚ) : List ℚ :=
  let afterRpm := now + (rpmSleep s now).sum
  if afterRpm - s.last_request_time < s.config.min_delay then
    [s.config.min_delay - (afterRpm - s.last_request_time)]
  else []

/-- A reachable state exercising the RPM branch with a stale log entry:
at `now = 100`, one request was recorded 100 seconds ago (timestamp 0)
and twenty more inside the trailing minute (timestamps 50 through 69),
with the default `rpm_limit` of 20. -/
def c1State : State :=
  { initState with
      request_times :=
        [0, 50, 51, 52, 53, 54, 55, 56, 57, 58, 59,
         60, 61, 62, 63, 64, 65, 66, 67, 68, 69] }

/-- A state under RPM pressure right after a paced request: `rpm_limit`
lowered to 1, one log entry 30 seconds old at `now = 100`, and the last
paced request only half a second ago. -/
def c2State : State :=
  { initState with
      config := { defaultConfig with rpm_limit := 1 }
      last_request_time := 199 / 2
      request_times := [70] }

/-- The index-range invariant behind the accessors: the user-agent index
addresses the pool, and so does the proxy index whenever the proxy pool
is non-empty. -/
def IdxInvariant (s : State) : Prop :=
  s.current_user_agent_idx < s.user_agents.length ∧
  (s.proxies ≠ [] → s.current_proxy_idx < s.proxies.length)

/-! ## Helper lemmas -/

/-- Characterization of the state after one `handle_rate_limit_error`. -/
theorem handle_snd (s : State) (u : ℚ) :
    (handle_rate_limit_error s u).2 =
      { s with
          error_count := s.error_count + 1
          current_backoff :=
            min (s.current_backoff * s.config.backoff_factor) s.config.max_backoff
          current_user_agent_idx :=
            (s.current_user_agent_idx + 1) % s.user_agents.length
          current_proxy_idx :=
            if s.config.use_proxies ∧ s.proxies ≠ [] then
              (s.current_proxy_idx + 1) % s.proxies.length
            else s.current_proxy_idx } := by
  unfold handle_rate_limit_error rotate_user_agent rotate_proxy
  cases hu : s.config.use_proxies <;> by_cases hp : s.proxies = [] <;>
    simp [hu, hp]

/-- The value `handle_rate_limit_error` returns. -/
theorem handle_fst (s : State) (u : ℚ) :
    (handle_rate_limit_error s u).1 =
      min (s.current_backoff * (1 + u)) s.config.max_backoff := rfl

/-- One escalation step keeps the backoff in `(0, max_backoff]` and never
shrinks it. -/
theorem backoff_step (b f mx : ℚ) (hf : 1 < f) (hb : 0 < b) (hbm : b ≤ mx) :
    b ≤ min (b * f) mx ∧ 0 < min (b * f) mx ∧ min (b * f) mx ≤ mx := by
  refine ⟨le_min (by nlinarith) hbm, lt_min (by positivity) (lt_of_lt_of_le hb hbm),
    min_le_right _ _⟩

/-- Iterated throttle handling preserves the configuration, the pools and
the pacing fields, and keeps the backoff within `(0, max_backoff]` without
ever shrinking it. -/
theorem handleIterState_invariant (s : State) (us : List ℚ)
    (hf : 1 < s.config.backoff_factor) (hb : 0 < s.current_backoff)
    (hbm : s.current_backoff ≤ s.config.max_backoff) :
    (handleIterState s us).config = s.config ∧
    0 < (handleIterState s us).current_backoff ∧
    (handleIterState s us).current_backoff ≤ s.config.max_backoff ∧
    s.current_backoff ≤ (handleIterState s us).current_backoff := by
  induction us generalizing s with
  | nil => exact ⟨rfl, hb, hbm, le_refl _⟩
  | cons u us ih =>
      have hstep := backoff_step s.current_backoff s.config.backoff_factor
        s.config.max_backoff hf hb hbm
      have h1 : (handle_rate_limit_error s u).2.config = s.config := by
        rw [handle_snd]
      have h2 : (handle_rate_limit_error s u).2.current_backoff =
          min (s.current_backoff * s.config.backoff_factor) s.config.max_backoff := by
        rw [handle_snd]
      have := ih (handle_rate_limit_error s u).2
        (by rw [h1]; exact hf) (by rw [h2]; exact hstep.2.1)
        (by rw [h2, h1]; exact hstep.2.2)
      refine ⟨by rw [show handleIterState s (u :: us) =
          handleIterState (handle_rate_limit_error s u).2 us from rfl, this.1, h1],
        this.2.1, ?_, ?_⟩
      · rw [show handleIterState s (u :: us) =
          handleIterState (handle_rate_limit_error s u).2 us from rfl]
        exact le_trans this.2.2.1 (le_of_eq (by rw [h1]))
      · exact le_trans hstep.1 (le_of_eq h2.symm |>.trans this.2.2.2)

/-- Splitting an iterated run of throttle signals. -/
theorem handleIterState_append (s : State) (us₁ us₂ : List ℚ) :
    handleIterState s (us₁ ++ us₂) = handleIterState (handleIterState s us₁) us₂ := by
  induction us₁ generalizing s with
  | nil => rfl
  | cons u us ih => exact ih (handle_rate_limit_error s u).2

/-- The bounded append never grows the log past 60 entries. -/
theorem dequeAppend60_length (xs : List ℚ) (x : ℚ) (h : xs.length ≤ 60) :
    (dequeAppend60 xs x).length ≤ 60 := by
  unfold dequeAppend60
  split
  · simp; omega
  · simp [List.length_tail]; omega

/-- On a log within its bound, the bounded append keeps exactly the
newest 60 of the old entries followed by the new one: the oldest entry is
the one evicted. -/
theorem dequeAppend60_eq_drop (xs : List ℚ) (x : ℚ) (h : xs.length ≤ 60) :
    dequeAppend60 xs x = (xs ++ [x]).drop ((xs ++ [x]).length - 60) := by
  unfold dequeAppend60
  split
  · have h0 : (xs ++ [x]).length - 60 = 0 := by simp; omega
    rw [h0, List.drop_zero]
  · have h60 : xs.length = 60 := by omega
    have h1 : (xs ++ [x]).length - 60 = 1 := by simp [h60]
    rw [h1]
    cases xs with
    | nil => simp at h60
    | cons y ys => simp [List.tail]

/-- Characterization of the rolling log after any run of
`record_request` calls: the newest 60 entries of old log plus new
timestamps, in order. -/
theorem recordIter_request_times (s : State) (ts : List ℚ)
    (h : s.request_times.length ≤ 60) :
    (recordIter s ts).request_times =
      (s.request_times ++ ts).drop ((s.request_times ++ ts).length - 60) := by
  induction ts generalizing s with
  | nil =>
      have h0 : s.request_times.length - 60 = 0 := by omega
      simp [recordIter, h0]
  | cons t ts ih =>
      have hlen := dequeAppend60_length s.request_times t h
      have heq := ih (record_request s t) (by simpa [record_request] using hlen)
      rw [show recordIter s (t :: ts) = recordIter (record_request s t) ts from rfl, heq]
      rw [show (record_request s t).request_times = dequeAppend60 s.request_times t from rfl]
      rw [dequeAppend60_eq_drop s.request_times t h]
      by_cases hlt : s.request_times.length < 60
      · have h0 : (s.request_times ++ [t]).length - 60 = 0 := by simp; omega
        rw [h0, List.drop_zero]
        simp [List.append_assoc]
      · have h60 : s.request_times.length = 60 := by omega
        have h1 : (s.request_times ++ [t]).length - 60 = 1 := by simp [h60]
        rw [h1]
        cases hxs : s.request_times with
        | nil => rw [hxs] at h60; simp at h60
        | cons y ys =>
            rw [hxs] at h60
            simp only [List.length_cons] at h60
            have hys : ys.length = 59 := by omega
            have hL : ((y :: ys) ++ [t]).drop 1 = ys ++ [t] := by simp
            rw [hL]
            have hidx1 : (ys ++ [t] ++ ts).length - 60 = ts.length := by
              simp only [List.length_append, List.length_cons, List.length_nil, hys]
              omega
            have hidx2 : ((y :: ys) ++ t :: ts).length - 60 = ts.length + 1 := by
              simp only [List.length_append, List.length_cons, hys]
              omega
            rw [hidx1, hidx2]
            rw [List.append_assoc, List.singleton_append]
            rw [show (y :: ys) ++ t :: ts = y :: (ys ++ t :: ts) from rfl]
            rw [List.drop_succ_cons]

/-- Iterated throttle handling leaves the user-agent pool alone and
advances the index by the number of signals, modulo the pool size. -/
theorem handleIterState_ua (s : State) (us : List ℚ)
    (h : s.current_user_agent_idx < s.user_agents.length) :
    (handleIterState s us).user_agents = s.user_agents ∧
    (handleIterState s us).current_user_agent_idx =
      (s.current_user_agent_idx + us.length) % s.user_agents.length := by
  induction us generalizing s with
  | nil => exact ⟨rfl, by simp [handleIterState, Nat.mod_eq_of_lt h]⟩
  | cons u us ih =>
      have hpos : 0 < s.user_agents.length := Nat.lt_of_le_of_lt (Nat.zero_le _) h
      have h1 : (handle_rate_limit_error s u).2.user_agents = s.user_agents := by
        rw [handle_snd]
      have h2 : (handle_rate_limit_error s u).2.current_user_agent_idx =
          (s.current_user_agent_idx + 1) % s.user_agents.length := by
        rw [handle_snd]
      have := ih (handle_rate_limit_error s u).2
        (by rw [h1, h2]; exact Nat.mod_lt _ hpos)
      refine ⟨by rw [show handleIterState s (u :: us) =
          handleIterState (handle_rate_limit_error s u).2 us from rfl, this.1, h1], ?_⟩
      rw [show handleIterState s (u :: us) =
        handleIterState (handle_rate_limit_error s u).2 us from rfl, this.2, h1, h2]
      simp only [List.length_cons, Nat.mod_add_mod]
      ring_nf

/-- The RPM step issues only strictly positive sleeps. -/
theorem rpmSleep_pos (s : State) (now : ℚ) :
    ∀ d ∈ rpmSleep s now, 0 < d := by
  intro d hd
  unfold rpmSleep at hd
  split at hd
  · split at hd
    · rename_i hpos
      rw [List.mem_singleton] at hd
      exact hd ▸ hpos
    · simp at hd
  · simp at hd

/-- The minimum-delay step issues only strictly positive sleeps. -/
theorem minDelaySleep_pos (s : State) (now : ℚ) :
    ∀ d ∈ minDelaySleep s now, 0 < d := by
  intro d hd
  unfold minDelaySleep at hd
  split at hd
  · rename_i hlt
    rw [List.mem_singleton] at hd
    rw [hd]
    linarith
  · simp at hd

/-- The sum of the sleeps a step issues is nonnegative as soon as each
issued sleep is. -/
theorem sleep_sum_nonneg (l : List ℚ) (h : ∀ d ∈ l, 0 ≤ d) : 0 ≤ l.sum :=
  List.sum_nonneg h

/-! ## Claims -/

/-- C1 (code bug in the RPM wait): at `c1State` with `now = 100`, twenty
log entries lie in the trailing 60 seconds, reaching the `rpm_limit` of
20, and the oldest entry inside that window is the timestamp 50, so the
wait the claim specifies, `61 - (100 - 50) = 11`, is positive and would
block; but the code takes the minimum over the whole log (the stale
timestamp 0), computes `61 - (100 - 0) = -39`, and issues no sleep at
all. -/
theorem c1_rpm_wait_skips_stale_log :
    defaultConfig.rpm_limit ≤ recentRequests c1State.request_times 100 ∧
    listMin? (c1State.request_times.filter (fun t => (100 : ℚ) - 60 < t)) = some 50 ∧
    (0 : ℚ) < 61 - (100 - 50) ∧
    rpmWaitTime c1State 100 = -39 ∧
    rpmSleep c1State 100 = [] := by
  refine ⟨?_, ?_, by norm_num, ?_, ?_⟩
  · norm_num [recentRequests, c1State, initState, defaultConfig]
  · norm_num [c1State, initState, listMin?, min_def]
  · norm_num [rpmWaitTime, c1State, initState, listMin?, min_def]
  · norm_num [rpmSleep, rpmWaitTime, recentRequests, c1State, initState,
      defaultConfig, listMin?, min_def]

/-- C2 counterexample: at `c2State` with `now = 100`, the RPM step blocks
for 31 seconds, after which the elapsed time since `last_request_time`
is 31.5 seconds, far above `min_delay = 1`; the claimed post-wait
re-check would therefore issue no minimum-delay sleep, but the code
compares the elapsed time it computed at entry (0.5 seconds) and sleeps
another half second. -/
theorem c2_no_recheck_after_rpm_wait :
    rpmSleep c2State 100 = [31] ∧
    minDelaySleepPostWait c2State 100 = [] ∧
    minDelaySleep c2State 100 = [1 / 2] ∧
    minDelaySleep c2State 100 ≠ minDelaySleepPostWait c2State 100 := by
  have h1 : rpmSleep c2State 100 = [31] := by
    norm_num [rpmSleep, rpmWaitTime, recentRequests, c2State, initState,
      defaultConfig, listMin?]
  have h2 : minDelaySleepPostWait c2State 100 = [] := by
    unfold minDelaySleepPostWait
    rw [h1]
    norm_num [c2State, initState, defaultConfig]
  have h3 : minDelaySleep c2State 100 = [1 / 2] := by
    norm_num [minDelaySleep, c2State, initState, defaultConfig]
  exact ⟨h1, h2, h3, by rw [h2, h3]; simp⟩

/-- C2 amended: `wait_if_needed` computes the elapsed time since
`last_request_time` once, at entry, before the RPM wait — the
minimum-delay step compares that pre-wait value (not a post-wait
re-check, which can only over-wait) — and a hard floor of `min_delay`
between any two paced requests holds regardless of RPM headroom: the
stored `last_request_time` advances by at least `min_delay` on every
call, whatever the clock and the RPM pressure, for any nonnegative noise
draw. -/
theorem c2_min_delay_floor (s : State) (now : ℚ) (noiseHit : Bool) (draw : ℚ)
    (hdraw : 0 ≤ draw) :
    (wait_if_needed s now noiseHit draw).1 =
      rpmSleep s now ++ minDelaySleep s now ++ noiseSleep noiseHit draw ∧
    s.last_request_time + s.config.min_delay ≤
      (wait_if_needed s now noiseHit draw).2.last_request_time := by
  refine ⟨rfl, ?_⟩
  have hrpm : 0 ≤ (rpmSleep s now).sum :=
    sleep_sum_nonneg _ (fun d hd => le_of_lt (rpmSleep_pos s now d hd))
  have hnoise : 0 ≤ (noiseSleep noiseHit draw).sum := by
    unfold noiseSleep; split <;> simp [hdraw]
  have hlast : (wait_if_needed s now noiseHit draw).2.last_request_time =
      now + ((rpmSleep s now).sum + ((minDelaySleep s now).sum +
        (noiseSleep noiseHit draw).sum)) := by
    simp [wait_if_needed]
  rw [hlast]
  by_cases hmd : now - s.last_request_time < s.config.min_delay
  · have : (minDelaySleep s now).sum = s.config.min_delay - (now - s.last_request_time) := by
      simp [minDelaySleep, hmd]
    rw [this]
    linarith
  · have : (minDelaySleep s now).sum = 0 := by
      simp [minDelaySleep, hmd]
    rw [this]
    push_neg at hmd
    linarith

/-- C2 amended, witness: a concrete call from the initial state. -/
theorem c2_min_delay_floor_witness :
    initState.last_request_time + initState.config.min_delay ≤
      (wait_if_needed initState 100 false 0).2.last_request_time :=
  (c2_min_delay_floor initState 100 false 0 (le_refl 0)).2

/-- C3: one throttle signal bumps `error_count` by exactly 1, leaves the
pacing clock alone (the method issues no sleep in the embedding, as in
the source), returns the pre-escalation `current_backoff` scaled by the
jitter factor `1 + u`, which lies in `[0.8, 1.2]` for any draw `u` of
`random.uniform(-0.2, 0.2)`, capped at `max_backoff`; and the stored
`current_backoff` escalates by `backoff_factor`, independently of the
jittered value that was returned. -/
theorem c3_throttle_signal_effect (s : State) (u : ℚ)
    (hu : -(1 / 5) ≤ u ∧ u ≤ 1 / 5) :
    (handle_rate_limit_error s u).2.error_count = s.error_count + 1 ∧
    ((4 : ℚ) / 5 ≤ 1 + u ∧ 1 + u ≤ 6 / 5) ∧
    (handle_rate_limit_error s u).1 =
      min (s.current_backoff * (1 + u)) s.config.max_backoff ∧
    (handle_rate_limit_error s u).2.current_backoff =
      min (s.current_backoff * s.config.backoff_factor) s.config.max_backoff ∧
    (handle_rate_limit_error s u).2.last_request_time = s.last_request_time := by
  obtain ⟨hu1, hu2⟩ := hu
  refine ⟨by rw [handle_snd], ⟨by linarith, by linarith⟩, handle_fst s u,
    by rw [handle_snd], by rw [handle_snd]⟩

/-- C3, witness: a throttle signal from the initial state with a zero
jitter draw. -/
theorem c3_throttle_signal_effect_witness :
    (handle_rate_limit_error initState 0).2.error_count = initState.error_count + 1 ∧
    ((4 : ℚ) / 5 ≤ 1 + 0 ∧ (1 : ℚ) + 0 ≤ 6 / 5) ∧
    (handle_rate_limit_error initState 0).1 =
      min (initState.current_backoff * (1 + 0)) initState.config.max_backoff ∧
    (handle_rate_limit_error initState 0).2.current_backoff =
      min (initState.current_backoff * initState.config.backoff_factor)
        initState.config.max_backoff ∧
    (handle_rate_limit_error initState 0).2.last_request_time =
      initState.last_request_time :=
  c3_throttle_signal_effect initState 0 ⟨by norm_num, by norm_num⟩

/-- C4: with a valid configuration (`backoff_factor > 1` and a current
backoff in `(0, max_backoff]`, as holds from `initial_backoff` on), any
run of consecutive throttle signals — whatever the jitter draws — yields
a non-decreasing sequence of stored `current_backoff` values, each of
them at most `max_backoff`, and each step updates the stored value to
`min(current_backoff * backoff_factor, max_backoff)`. -/
theorem c4_monotonic_escalation (s : State)
    (hf : 1 < s.config.backoff_factor)
    (hb : 0 < s.current_backoff)
    (hbm : s.current_backoff ≤ s.config.max_backoff) :
    (∀ us₁ us₂ : List ℚ,
        (handleIterState s us₁).current_backoff ≤
          (handleIterState s (us₁ ++ us₂)).current_backoff) ∧
    (∀ us : List ℚ,
        (handleIterState s us).current_backoff ≤ s.config.max_backoff) ∧
    (∀ us : List ℚ, ∀ u : ℚ,
        (handle_rate_limit_error (handleIterState s us) u).2.current_backoff =
          min ((handleIterState s us).current_backoff * s.config.backoff_factor)
            s.config.max_backoff) := by
  refine ⟨?_, ?_, ?_⟩
  · intro us₁ us₂
    rw [handleIterState_append]
    have h1 := handleIterState_invariant s us₁ hf hb hbm
    exact (handleIterState_invariant (handleIterState s us₁) us₂
      (by rw [h1.1]; exact hf) h1.2.1 (by rw [h1.1]; exact h1.2.2.1)).2.2.2
  · intro us
    exact (handleIterState_invariant s us hf hb hbm).2.2.1
  · intro us u
    have h1 := handleIterState_invariant s us hf hb hbm
    rw [handle_snd]
    simp [h1.1]

/-- C4, witness: the default configuration (`initial_backoff = 5`,
`backoff_factor = 2`, `max_backoff = 300`) satisfies the hypotheses, and
the escalation is non-decreasing and capped along a concrete run. -/
theorem c4_monotonic_escalation_witness :
    (handleIterState initState [0]).current_backoff ≤
      (handleIterState initState ([0] ++ [0])).current_backoff ∧
    (handleIterState initState [0, 0, 0]).current_backoff ≤
      initState.config.max_backoff := by
  have h := c4_monotonic_escalation initState
    (by norm_num [initState, defaultConfig])
    (by norm_num [initState, defaultConfig])
    (by norm_num [initState, defaultConfig])
  exact ⟨h.1 [0] [0], h.2.1 [0, 0, 0]⟩

/-- C5: `configure` overwrites exactly the supplied recognized fields
(each config entry becomes the supplied value when present and keeps its
previous value otherwise), ignores unrecognized keys entirely,
unconditionally resets `current_backoff` to the resulting
`initial_backoff` and `error_count` to 0, and leaves every other piece
of state (pacing clock, rolling log, pools, indices) untouched. -/
theorem c5_configure_effects (s : State) (o : ConfigureOptions) :
    (configure s o).config.min_delay = o.min_delay.getD s.config.min_delay ∧
    (configure s o).config.max_delay = o.max_delay.getD s.config.max_delay ∧
    (configure s o).config.rpm_limit = o.rpm_limit.getD s.config.rpm_limit ∧
    (configure s o).config.use_proxies = o.use_proxies.getD s.config.use_proxies ∧
    (configure s o).config.initial_backoff =
      o.initial_backoff.getD s.config.initial_backoff ∧
    (configure s o).config.max_backoff = o.max_backoff.getD s.config.max_backoff ∧
    (configure s o).config.backoff_factor =
      o.backoff_factor.getD s.config.backoff_factor ∧
    (configure s o).config.browser = o.browser.getD s.config.browser ∧
    (configure s o).config.headless = o.headless.getD s.config.headless ∧
    (configure s o).current_backoff = (configure s o).config.initial_backoff ∧
    (configure s o).error_count = 0 ∧
    (configure s o).last_request_time = s.last_request_time ∧
    (configure s o).request_times = s.request_times ∧
    (configure s o).user_agents = s.user_agents ∧
    (configure s o).current_user_agent_idx = s.current_user_agent_idx ∧
    (configure s o).proxies = s.proxies ∧
    (configure s o).current_proxy_idx = s.current_proxy_idx ∧
    ∀ ks : List String, configure s { o with unrecognized := ks } = configure s o :=
  ⟨rfl, rfl, rfl, rfl, rfl, rfl, rfl, rfl, rfl, rfl, rfl, rfl, rfl, rfl, rfl, rfl,
    rfl, fun _ => rfl⟩

/-- C6: for any run of `record_request` calls from a log within its
bound, the reported `requests_last_minute` equals the number of stored
timestamps within 60 seconds of now, the rolling log never exceeds 60
entries, and on overflow it keeps exactly the newest 60 entries — the
oldest is evicted first. -/
theorem c6_rolling_window (s : State) (ts : List ℚ) (now : ℚ)
    (h : s.request_times.length ≤ 60) :
    (get_request_stats (recordIter s ts) now).requests_last_minute =
      ((recordIter s ts).request_times.filter (fun t => now - t < 60)).length ∧
    (recordIter s ts).request_times.length ≤ 60 ∧
    (recordIter s ts).request_times =
      (s.request_times ++ ts).drop ((s.request_times ++ ts).length - 60) := by
  have hchar := recordIter_request_times s ts h
  refine ⟨?_, ?_, hchar⟩
  · show recentRequests (recordIter s ts).request_times now = _
    unfold recentRequests
    congr 1
    apply List.filter_congr
    intro t _
    rw [decide_eq_decide]
    constructor <;> intro <;> linarith
  · rw [hchar]
    simp only [List.length_drop]
    omega

/-- C6, witness: three recordings from the empty initial log. -/
theorem c6_rolling_window_witness :
    (get_request_stats (recordIter initState [1, 2, 3]) 50).requests_last_minute =
      ((recordIter initState [1, 2, 3]).request_times.filter
        (fun t => (50 : ℚ) - t < 60)).length ∧
    (recordIter initState [1, 2, 3]).request_times.length ≤ 60 ∧
    (recordIter initState [1, 2, 3]).request_times =
      (initState.request_times ++ [1, 2, 3]).drop
        ((initState.request_times ++ [1, 2, 3]).length - 60) :=
  c6_rolling_window initState [1, 2, 3] 50 (by decide)

/-- C7: a throttle signal always rotates the identity — with the actual
ten-entry user-agent pool the reported identity after the call differs
from the one before it, and any ten consecutive signals bring the
identity index back to its starting position — while the proxy index
moves only when `use_proxies` is enabled and the proxy pool is
non-empty, in which case it advances cyclically by one. -/
theorem c7_identity_rotation (s : State) (u : ℚ) (us : List ℚ)
    (hua : s.user_agents = initialUserAgents)
    (hidx : s.current_user_agent_idx < 10)
    (hlen : us.length = 10) :
    get_user_agent (handle_rate_limit_error s u).2 ≠ get_user_agent s ∧
    (handleIterState s us).current_user_agent_idx = s.current_user_agent_idx ∧
    (s.config.use_proxies = false ∨ s.proxies = [] →
      (handle_rate_limit_error s u).2.current_proxy_idx = s.current_proxy_idx) ∧
    (s.config.use_proxies = true ∧ s.proxies ≠ [] →
      (handle_rate_limit_error s u).2.current_proxy_idx =
        (s.current_proxy_idx + 1) % s.proxies.length) := by
  have hlen10 : s.user_agents.length = 10 := by rw [hua]; rfl
  have ha : (handle_rate_limit_error s u).2.user_agents = s.user_agents := by
    rw [handle_snd]
  have hb : (handle_rate_limit_error s u).2.current_user_agent_idx =
      (s.current_user_agent_idx + 1) % s.user_agents.length := by
    rw [handle_snd]
  have hc : (handle_rate_limit_error s u).2.current_proxy_idx =
      if s.config.use_proxies ∧ s.proxies ≠ [] then
        (s.current_proxy_idx + 1) % s.proxies.length
      else s.current_proxy_idx := by
    rw [handle_snd]
  refine ⟨?_, ?_, ?_, ?_⟩
  · unfold get_user_agent
    rw [ha, hb, hua, show initialUserAgents.length = 10 from rfl]
    set i := s.current_user_agent_idx with hi
    clear_value i
    interval_cases i <;> decide
  · have h2 := (handleIterState_ua s us (by rw [hlen10]; exact hidx)).2
    rw [h2, hlen, hlen10, Nat.add_mod_right, Nat.mod_eq_of_lt hidx]
  · intro h
    rw [hc]
    rcases h with h | h
    · simp [h]
    · simp [h]
  · intro h
    rw [hc]
    simp [h.1, h.2]

/-- C7, witness: a signal and a run of ten signals from the initial
state. -/
theorem c7_identity_rotation_witness :
    get_user_agent (handle_rate_limit_error initState 0).2 ≠
      get_user_agent initState ∧
    (handleIterState initState
        [0, 0, 0, 0, 0, 0, 0, 0, 0, 0]).current_user_agent_idx =
      initState.current_user_agent_idx := by
  have h := c7_identity_rotation initState 0 [0, 0, 0, 0, 0, 0, 0, 0, 0, 0]
    rfl (by decide) rfl
  exact ⟨h.1, h.2.1⟩

/-- C8: under any clock values — elapsed times may be negative when the
clock moves backward — and a valid configuration with
`0 ≤ min_delay ≤ max_delay` (so any noise draw from
`[min_delay, max_delay]` is at least `min_delay`), no negative duration
is ever passed to the sleep primitive by any of the three wait steps,
and the RPM and minimum-delay steps issue no sleep at all whenever their
computed wait duration is not positive — indeed every sleep those two
steps do issue is strictly positive. -/
theorem c8_no_negative_sleep (s : State) (now : ℚ) (noiseHit : Bool) (draw : ℚ)
    (hmin : 0 ≤ s.config.min_delay)
    (hdraw : s.config.min_delay ≤ draw ∧ draw ≤ s.config.max_delay) :
    (∀ d ∈ (wait_if_needed s now noiseHit draw).1, 0 ≤ d) ∧
    (rpmWaitTime s now ≤ 0 → rpmSleep s now = []) ∧
    (s.config.min_delay - (now - s.last_request_time) ≤ 0 →
      minDelaySleep s now = []) ∧
    (∀ d ∈ rpmSleep s now, 0 < d) ∧
    (∀ d ∈ minDelaySleep s now, 0 < d) := by
  refine ⟨?_, ?_, ?_, rpmSleep_pos s now, minDelaySleep_pos s now⟩
  · intro d hd
    have hsplit : (wait_if_needed s now noiseHit draw).1 =
        rpmSleep s now ++ minDelaySleep s now ++ noiseSleep noiseHit draw := rfl
    rw [hsplit, List.mem_append, List.mem_append] at hd
    rcases hd with (hd | hd) | hd
    · exact le_of_lt (rpmSleep_pos s now d hd)
    · exact le_of_lt (minDelaySleep_pos s now d hd)
    · unfold noiseSleep at hd
      split at hd
      · rw [List.mem_singleton] at hd
        rw [hd]
        linarith [hdraw.1]
      · simp at hd
  · intro h
    unfold rpmSleep
    split
    · split
      · rename_i hpos
        linarith
      · rfl
    · rfl
  · intro h
    unfold minDelaySleep
    split
    · rename_i hlt
      linarith
    · rfl

/-- C8, witness: a call from the initial state with an in-range noise
draw. -/
theorem c8_no_negative_sleep_witness :
    (rpmWaitTime initState 0 ≤ 0 → rpmSleep initState 0 = []) ∧
    ((1 : ℚ) ∈ (wait_if_needed initState 0 true 2).1 → (0 : ℚ) ≤ 1) := by
  have h := c8_no_negative_sleep initState 0 true 2
    (by norm_num [initState, defaultConfig])
    ⟨by norm_num [initState, defaultConfig], by norm_num [initState, defaultConfig]⟩
  exact ⟨h.2.1, fun hm => h.1 1 hm⟩

/-- C9: with `last_request_time` at its initial value 0 — which
`record_request`, `handle_rate_limit_error`, `configure` and
`reset_error_count` all preserve, since only a completed
`wait_if_needed` ever stores a new pacing timestamp — the minimum-delay
step issues no sleep at any clock reading of at least `min_delay`
(elapsed time is measured from epoch 0), and the stats snapshot reports
the `None` sentinel for `time_since_last` exactly when
`last_request_time` equals 0. -/
theorem c9_epoch_sentinel (s : State) (now t u : ℚ) (o : ConfigureOptions)
    (h0 : s.last_request_time = 0)
    (hnow : s.config.min_delay ≤ now) :
    minDelaySleep s now = [] ∧
    ((get_request_stats s now).time_since_last = none ↔
      s.last_request_time = 0) ∧
    initState.last_request_time = 0 ∧
    (record_request s t).last_request_time = s.last_request_time ∧
    (handle_rate_limit_error s u).2.last_request_time = s.last_request_time ∧
    (configure s o).last_request_time = s.last_request_time ∧
    (reset_error_count s).last_request_time = s.last_request_time := by
  refine ⟨?_, ?_, rfl, rfl, by rw [handle_snd], rfl, ?_⟩
  · unfold minDelaySleep
    rw [h0, sub_zero, if_neg (not_lt.mpr hnow)]
  · by_cases hz : s.last_request_time = 0
    · simp [get_request_stats, hz]
    · simp [get_request_stats, hz]
  · unfold reset_error_count
    split <;> rfl

/-- C9, witness: the initial state at clock reading 100. -/
theorem c9_epoch_sentinel_witness :
    minDelaySleep initState 100 = [] ∧
    ((get_request_stats initState 100).time_since_last = none ↔
      initState.last_request_time = 0) := by
  have h := c9_epoch_sentinel initState 100 5 0 {} rfl
    (by norm_num [initState, defaultConfig])
  exact ⟨h.1, h.2.1⟩

/-- C10: every operation preserves the invariant that the user-agent
index addresses its pool and, when the proxy pool is non-empty, the
proxy index addresses its pool; under that invariant `get_user_agent`
never indexes out of range, rotating with an empty proxy pool leaves the
state unchanged, and `get_proxy` returns the no-proxy sentinel whenever
proxies are disabled or the pool is empty. -/
theorem c10_index_invariant (s : State) (u t now draw : ℚ) (noiseHit : Bool)
    (o : ConfigureOptions) (hinv : IdxInvariant s) :
    IdxInvariant (record_request s t) ∧
    IdxInvariant (wait_if_needed s now noiseHit draw).2 ∧
    IdxInvariant (handle_rate_limit_error s u).2 ∧
    IdxInvariant (configure s o) ∧
    IdxInvariant (reset_error_count s) ∧
    (get_user_agent s).isSome = true ∧
    (s.proxies = [] → rotate_proxy s = s) ∧
    (s.config.use_proxies = false ∨ s.proxies = [] → get_proxy s = none) := by
  have hb : (handle_rate_limit_error s u).2.current_user_agent_idx =
      (s.current_user_agent_idx + 1) % s.user_agents.length := by
    rw [handle_snd]
  have ha : (handle_rate_limit_error s u).2.user_agents = s.user_agents := by
    rw [handle_snd]
  have hp : (handle_rate_limit_error s u).2.proxies = s.proxies := by
    rw [handle_snd]
  have hc : (handle_rate_limit_error s u).2.current_proxy_idx =
      if s.config.use_proxies ∧ s.proxies ≠ [] then
        (s.current_proxy_idx + 1) % s.proxies.length
      else s.current_proxy_idx := by
    rw [handle_snd]
  refine ⟨hinv, hinv, ⟨?_, ?_⟩, hinv, ?_, ?_, ?_, ?_⟩
  · rw [ha, hb]
    exact Nat.mod_lt _ (Nat.lt_of_le_of_lt (Nat.zero_le _) hinv.1)
  · rw [hp, hc]
    intro hne
    split
    · exact Nat.mod_lt _ (List.length_pos.mpr hne)
    · exact hinv.2 hne
  · unfold reset_error_count
    split
    · exact hinv
    · exact hinv
  · unfold get_user_agent
    rw [List.getElem?_eq_getElem hinv.1]
    rfl
  · intro h
    unfold rotate_proxy
    rw [if_pos h]
  · intro h
    unfold get_proxy
    rcases h with h | h
    · rw [if_pos (Or.inl (by simp [h]))]
    · rw [if_pos (Or.inr h)]

/-- C10, witness: the initial state satisfies the invariant, an
operation preserves it, the identity accessor is in range and the proxy
accessor reports the sentinel. -/
theorem c10_index_invariant_witness :
    IdxInvariant (record_request initState 5) ∧
    (get_user_agent initState).isSome = true ∧
    get_proxy initState = none := by
  have h := c10_index_invariant initState 0 5 0 0 false {}
    ⟨by decide, fun hne => absurd rfl hne⟩
  exact ⟨h.1, h.2.2.2.2.2.1, h.2.2.2.2.2.2.2 (Or.inl rfl)⟩

end RateLimiter
